import Mathlib

/-!
Shallow embedding of `src/bin2iso.c` (bin2iso by DeXT): conversion of a raw
BIN optical-disc image (2352 or 2336 bytes per sector) to an ISO image
(2048 bytes per sector).  The source stream is modelled as a list of byte
values (`Nat`, each < 256 in intended use), the destination as the list of
bytes written so far, and the diagnostic channel as a list of `Warning`
values.  Fatal `die` paths are modelled by `Except`.
-/

deriving instance DecidableEq for Except

namespace Bin2Iso

/-- The 12-byte sync header constant `SYNC_HEADER` from the C source
(`{0, 0xFF×10, 0}`). -/
def SYNC_HEADER : List Nat :=
  [0, 0xFF, 0xFF, 0xFF, 0xFF, 0xFF, 0xFF, 0xFF, 0xFF, 0xFF, 0xFF, 0]

/-- `MODE_OFFSET` from the C source: offset of the mode byte in a raw sector. -/
def MODE_OFFSET : Nat := 15

/-- The layout parameters chosen by the detection branch in `main`
(lines 109-128): `mode` (0 means no mode byte to validate), `hdr_sz`,
`sector_sz`. -/
structure Layout where
  mode : Nat
  hdr_sz : Nat
  sector_sz : Nat
deriving Repr, DecidableEq

/-- Diagnostics emitted through `warn` in the C source. -/
inductive Warning where
  /-- "Image size is not a factor of sector size %zu, last %zu bytes will
  be dropped" (line 136). -/
  | sizeMisaligned (sector_sz dropped : Nat)
  /-- "Sector %lu has different mode (%u instead of %u)" (line 145). -/
  | modeMismatch (idx observed expected : Nat)
deriving Repr, DecidableEq

/-- Fatal exits reachable from the conversion core (`die` calls). -/
inductive RunError where
  /-- "Read error" from `xfread` on a short read. -/
  | readError
  /-- "Unsupported track mode %u" (line 126), carrying the observed mode byte. -/
  | unsupportedMode (observed : Nat)
deriving Repr, DecidableEq

/-- Conversion state: source stream position, destination stream position,
destination contents written so far, and warnings emitted so far. -/
structure St where
  srcPos : Nat
  dstPos : Nat
  dst : List Nat
  warnings : List Warning
deriving Repr, DecidableEq

/-- `xfread`: read exactly `sz` bytes from position `pos` of the source,
failing (the C code calls `die`) when fewer than `sz` bytes remain. -/
def xfreadAt (src : List Nat) (pos sz : Nat) : Option (List Nat) :=
  if pos + sz ≤ src.length then some ((src.drop pos).take sz) else none

/-- Layout detection from the 16-byte probe buffer (lines 109-128 of the C
source): a sync-header mismatch selects Mode 2 / 2336; otherwise the mode
byte at `MODE_OFFSET` selects Mode 2 / 2352 or Mode 1 / 2352, and any other
value is the fatal "Unsupported track mode" error carrying that value. -/
def detectLayout (probe : List Nat) : Except RunError Layout :=
  if probe.take 12 ≠ SYNC_HEADER then
    Except.ok ⟨0, 8, 2336⟩
  else
    let mode := probe.getD MODE_OFFSET 0
    if mode = 2 then Except.ok ⟨2, 24, 2352⟩
    else if mode = 1 then Except.ok ⟨1, 16, 2352⟩
    else Except.error (RunError.unsupportedMode mode)

/-- One iteration of the conversion loop (lines 142-149): read a full
sector into the buffer, possibly warn about a mode mismatch
(`if (mode && buf[MODE_OFFSET] != mode)`), then write the 2048 payload
bytes starting at `hdr_sz`. -/
def doSector (src : List Nat) (L : Layout) (i : Nat) (s : St) : Option St :=
  match xfreadAt src s.srcPos L.sector_sz with
  | none => none
  | some buf =>
    let s1 : St := { s with srcPos := s.srcPos + L.sector_sz }
    let s2 : St :=
      if L.mode ≠ 0 ∧ buf.getD MODE_OFFSET 0 ≠ L.mode then
        { s1 with warnings :=
            s1.warnings ++ [Warning.modeMismatch i (buf.getD MODE_OFFSET 0) L.mode] }
      else s1
    some { s2 with
           dst := s2.dst ++ (buf.drop L.hdr_sz).take 2048,
           dstPos := s2.dstPos + 2048 }

/-- The sector loop: process `n` consecutive sectors starting at index `i`. -/
def runSectors (src : List Nat) (L : Layout) : Nat → Nat → St → Option St
  | _, 0, s => some s
  | i, n + 1, s =>
    match doSector src L i s with
    | none => none
    | some s' => runSectors src L (i + 1) n s'

/-- The whole conversion (`main` from the probe read onwards, lines
107-149): probe read of 16 bytes, layout detection, geometry from
`img_sz / sector_sz` and `img_sz % sector_sz` with the size-misalignment
warning, rewind, then the sector loop. -/
def convert (src : List Nat) : Except RunError St :=
  match xfreadAt src 0 16 with
  | none => Except.error RunError.readError
  | some probe =>
    match detectLayout probe with
    | Except.error e => Except.error e
    | Except.ok L =>
      let img_sz := src.length
      let tail_sz := img_sz % L.sector_sz
      let warns0 : List Warning :=
        if tail_sz ≠ 0 then [Warning.sizeMisaligned L.sector_sz tail_sz] else []
      let nr_sectors := img_sz / L.sector_sz
      -- rewind(src): the loop starts reading from position 0
      match runSectors src L 0 nr_sectors ⟨0, 0, [], warns0⟩ with
      | none => Except.error RunError.readError
      | some s => Except.ok s

/-- `fopen(dstname, "wb")`: opening the destination for writing truncates
whatever contents it had. -/
def fopenWb (_dstInit : List Nat) : List Nat := []

/-- A whole program run as far as the destination file is concerned: the
destination is opened with `"wb"` (truncating its previous contents,
line 104) before the probe read, so on a fatal exit it holds zero bytes,
and on success it holds exactly the converted output. -/
def runProgram (src dstInit : List Nat) : Except RunError St × List Nat :=
  let dst0 := fopenWb dstInit
  match convert src with
  | Except.error e => (Except.error e, dst0)
  | Except.ok s => (Except.ok s, dst0 ++ s.dst)

/-- The sector buffer contents for sector `i`: `sector_sz` bytes starting
at byte `i * sector_sz` of the source. -/
def sectorBuf (src : List Nat) (L : Layout) (i : Nat) : List Nat :=
  (src.drop (i * L.sector_sz)).take L.sector_sz

/-- The payload written for sector `i`: the 2048 bytes of the sector
buffer starting at `hdr_sz`. -/
def payloadAt (src : List Nat) (L : Layout) (i : Nat) : List Nat :=
  ((sectorBuf src L i).drop L.hdr_sz).take 2048

/-- The mode-mismatch warnings emitted while processing sector `i`
(none, or exactly one). -/
def mismatchWarnAt (src : List Nat) (L : Layout) (i : Nat) : List Warning :=
  if L.mode ≠ 0 ∧ (sectorBuf src L i).getD MODE_OFFSET 0 ≠ L.mode then
    [Warning.modeMismatch i ((sectorBuf src L i).getD MODE_OFFSET 0) L.mode]
  else []

/-- Concatenated payloads of sectors `i, i+1, …, i+n-1`. -/
def payloadSeg (src : List Nat) (L : Layout) : Nat → Nat → List Nat
  | _, 0 => []
  | i, n + 1 => payloadAt src L i ++ payloadSeg src L (i + 1) n

/-- Concatenated mode-mismatch warnings of sectors `i, i+1, …, i+n-1`. -/
def warnSeg (src : List Nat) (L : Layout) : Nat → Nat → List Warning
  | _, 0 => []
  | i, n + 1 => mismatchWarnAt src L i ++ warnSeg src L (i + 1) n

/-! ### Characterisation of the sector loop -/

theorem doSector_spec (src : List Nat) (L : Layout) (i : Nat) (s : St)
    (hpos : s.srcPos = i * L.sector_sz)
    (hread : (i + 1) * L.sector_sz ≤ src.length) :
    doSector src L i s = some
      { srcPos := (i + 1) * L.sector_sz,
        dstPos := s.dstPos + 2048,
        dst := s.dst ++ payloadAt src L i,
        warnings := s.warnings ++ mismatchWarnAt src L i } := by
  have hbuf : xfreadAt src s.srcPos L.sector_sz = some (sectorBuf src L i) := by
    have hmul : (i + 1) * L.sector_sz = i * L.sector_sz + L.sector_sz := by ring
    rw [hpos]
    simp only [xfreadAt, sectorBuf]
    rw [if_pos (by omega : i * L.sector_sz + L.sector_sz ≤ src.length)]
  have hsz : s.srcPos + L.sector_sz = (i + 1) * L.sector_sz := by
    rw [hpos]; ring
  simp only [doSector, hbuf]
  unfold mismatchWarnAt payloadAt
  by_cases hc : L.mode ≠ 0 ∧ (sectorBuf src L i).getD MODE_OFFSET 0 ≠ L.mode
  · rw [if_pos hc, if_pos hc]
    simp only [Option.some.injEq, St.mk.injEq, and_true, true_and]
    exact hsz
  · rw [if_neg hc, if_neg hc]
    simp only [Option.some.injEq, St.mk.injEq, List.append_nil, and_true, true_and]
    exact hsz

theorem runSectors_spec (src : List Nat) (L : Layout) :
    ∀ (n i : Nat) (s : St), s.srcPos = i * L.sector_sz →
      (i + n) * L.sector_sz ≤ src.length →
      runSectors src L i n s =
        some { srcPos := (i + n) * L.sector_sz,
               dstPos := s.dstPos + n * 2048,
               dst := s.dst ++ payloadSeg src L i n,
               warnings := s.warnings ++ warnSeg src L i n } := by
  intro n
  induction n with
  | zero =>
    intro i s hpos _
    simp [runSectors, payloadSeg, warnSeg, ← hpos]
  | succ n ih =>
    intro i s hpos hlen
    have hread : (i + 1) * L.sector_sz ≤ src.length := by
      have : (i + 1) * L.sector_sz ≤ (i + (n + 1)) * L.sector_sz :=
        Nat.mul_le_mul_right _ (by omega)
      omega
    have hdo := doSector_spec src L i s hpos hread
    have hidx : i + 1 + n = i + (n + 1) := by omega
    have hnext := ih (i + 1)
      { srcPos := (i + 1) * L.sector_sz,
        dstPos := s.dstPos + 2048,
        dst := s.dst ++ payloadAt src L i,
        warnings := s.warnings ++ mismatchWarnAt src L i }
      rfl (by rw [hidx]; exact hlen)
    simp only [runSectors, hdo, hnext, Option.some.injEq, St.mk.injEq,
      payloadSeg, warnSeg, List.append_assoc, and_true, true_and]
    exact ⟨by rw [hidx], by omega⟩

theorem detectLayout_cases (probe : List Nat) (L : Layout)
    (h : detectLayout probe = Except.ok L) :
    L = ⟨0, 8, 2336⟩ ∨ L = ⟨1, 16, 2352⟩ ∨ L = ⟨2, 24, 2352⟩ := by
  unfold detectLayout at h
  split at h
  · exact Or.inl (Except.ok.inj h).symm
  · simp only [] at h
    split at h
    · exact Or.inr (Or.inr (Except.ok.inj h).symm)
    · split at h
      · exact Or.inr (Or.inl (Except.ok.inj h).symm)
      · exact absurd h (by simp)

theorem detectLayout_hdr_le (probe : List Nat) (L : Layout)
    (h : detectLayout probe = Except.ok L) :
    L.hdr_sz + 2048 ≤ L.sector_sz ∧ 16 ≤ L.sector_sz := by
  rcases detectLayout_cases probe L h with h | h | h <;> subst h <;> simp

theorem convert_spec (src : List Nat) (L : Layout)
    (hlen : 16 ≤ src.length)
    (hdet : detectLayout (src.take 16) = Except.ok L) :
    convert src = Except.ok
      { srcPos := src.length / L.sector_sz * L.sector_sz,
        dstPos := src.length / L.sector_sz * 2048,
        dst := payloadSeg src L 0 (src.length / L.sector_sz),
        warnings :=
          (if src.length % L.sector_sz ≠ 0 then
            [Warning.sizeMisaligned L.sector_sz (src.length % L.sector_sz)]
          else []) ++ warnSeg src L 0 (src.length / L.sector_sz) } := by
  have hprobe : xfreadAt src 0 16 = some (src.take 16) := by
    simp [xfreadAt, hlen]
  have hrun := runSectors_spec src L (src.length / L.sector_sz) 0
    ⟨0, 0, [],
     if src.length % L.sector_sz ≠ 0 then
       [Warning.sizeMisaligned L.sector_sz (src.length % L.sector_sz)]
     else []⟩
    (by simp)
    (by simpa using Nat.div_mul_le_self src.length L.sector_sz)
  simp only [convert, hprobe, hdet, hrun]
  simp

theorem payloadAt_length (src : List Nat) (L : Layout) (i : Nat)
    (hfit : (i + 1) * L.sector_sz ≤ src.length)
    (hhdr : L.hdr_sz + 2048 ≤ L.sector_sz) :
    (payloadAt src L i).length = 2048 := by
  have hmul : (i + 1) * L.sector_sz = i * L.sector_sz + L.sector_sz := by ring
  unfold payloadAt sectorBuf
  simp only [List.length_take, List.length_drop]
  omega

theorem payloadAt_getD (src : List Nat) (L : Layout) (i r : Nat)
    (hhdr : L.hdr_sz + 2048 ≤ L.sector_sz) (hr : r < 2048) :
    (payloadAt src L i).getD r 0 = src.getD (i * L.sector_sz + L.hdr_sz + r) 0 := by
  unfold payloadAt sectorBuf
  simp only [List.getD_eq_getElem?_getD]
  rw [List.getElem?_take_of_lt hr, List.getElem?_drop,
    List.getElem?_take_of_lt (by omega : L.hdr_sz + r < L.sector_sz),
    List.getElem?_drop]
  rw [Nat.add_assoc]

theorem payloadSeg_length (src : List Nat) (L : Layout)
    (hhdr : L.hdr_sz + 2048 ≤ L.sector_sz) :
    ∀ (n i : Nat), (i + n) * L.sector_sz ≤ src.length →
      (payloadSeg src L i n).length = n * 2048 := by
  intro n
  induction n with
  | zero => intro i _; simp [payloadSeg]
  | succ n ih =>
    intro i hfit
    have hle : ∀ m k : Nat, m ≤ k → m * L.sector_sz ≤ k * L.sector_sz :=
      fun m k h => Nat.mul_le_mul_right _ h
    have h1 : (i + 1) * L.sector_sz ≤ src.length :=
      le_trans (hle _ _ (by omega)) hfit
    have h2 : (i + 1 + n) * L.sector_sz ≤ src.length := by
      have : i + 1 + n = i + (n + 1) := by omega
      rw [this]; exact hfit
    simp only [payloadSeg, List.length_append, ih (i + 1) h2,
      payloadAt_length src L i h1 hhdr]
    omega

theorem payloadSeg_succ_right (src : List Nat) (L : Layout) :
    ∀ (n i : Nat),
      payloadSeg src L i (n + 1) = payloadSeg src L i n ++ payloadAt src L (i + n) := by
  intro n
  induction n with
  | zero => intro i; simp [payloadSeg]
  | succ n ih =>
    intro i
    have h1 : payloadSeg src L i (n + 2) =
        payloadAt src L i ++ payloadSeg src L (i + 1) (n + 1) := rfl
    rw [h1, ih (i + 1)]
    have h2 : payloadSeg src L i (n + 1) =
        payloadAt src L i ++ payloadSeg src L (i + 1) n := rfl
    rw [h2, List.append_assoc]
    have h3 : i + 1 + n = i + (n + 1) := by omega
    rw [h3]

theorem warnSeg_succ_right (src : List Nat) (L : Layout) :
    ∀ (n i : Nat),
      warnSeg src L i (n + 1) = warnSeg src L i n ++ mismatchWarnAt src L (i + n) := by
  intro n
  induction n with
  | zero => intro i; simp [warnSeg]
  | succ n ih =>
    intro i
    have h1 : warnSeg src L i (n + 2) =
        mismatchWarnAt src L i ++ warnSeg src L (i + 1) (n + 1) := rfl
    rw [h1, ih (i + 1)]
    have h2 : warnSeg src L i (n + 1) =
        mismatchWarnAt src L i ++ warnSeg src L (i + 1) n := rfl
    rw [h2, List.append_assoc]
    have h3 : i + 1 + n = i + (n + 1) := by omega
    rw [h3]

theorem payloadSeg_getD (src : List Nat) (L : Layout)
    (hhdr : L.hdr_sz + 2048 ≤ L.sector_sz) :
    ∀ (n k : Nat), n * L.sector_sz ≤ src.length → k < n * 2048 →
      (payloadSeg src L 0 n).getD k 0 =
        src.getD (L.hdr_sz + L.sector_sz * (k / 2048) + k % 2048) 0 := by
  intro n
  induction n with
  | zero => intro k _ hk; omega
  | succ n ih =>
    intro k hfit hk
    have hstep : (n + 1) * L.sector_sz = n * L.sector_sz + L.sector_sz := by ring
    have hfitn : n * L.sector_sz ≤ src.length := by omega
    have hlenn : (payloadSeg src L 0 n).length = n * 2048 :=
      payloadSeg_length src L hhdr n 0 (by simpa using hfitn)
    rw [payloadSeg_succ_right, Nat.zero_add]
    by_cases hlt : k < n * 2048
    · rw [List.getD_eq_getElem?_getD, List.getElem?_append_left (by omega),
        ← List.getD_eq_getElem?_getD]
      exact ih k hfitn hlt
    · have hr : k - n * 2048 < 2048 := by omega
      rw [List.getD_eq_getElem?_getD, List.getElem?_append_right (by omega), hlenn,
        ← List.getD_eq_getElem?_getD,
        payloadAt_getD src L n (k - n * 2048) hhdr hr]
      congr 1
      have hdiv : k / 2048 = n := by omega
      have hmod : k % 2048 = k - n * 2048 := by omega
      have hcomm : L.sector_sz * n = n * L.sector_sz := Nat.mul_comm _ _
      rw [hdiv, hmod]
      omega

theorem lt_length_of_getD_ne (src : List Nat) (i : Nat) (h : src.getD i 0 ≠ 0) :
    i < src.length := by
  by_contra hc
  rw [List.getD_eq_getElem?_getD, List.getElem?_eq_none (by omega)] at h
  simp at h

theorem take12_of_take16 (src : List Nat) : (src.take 16).take 12 = src.take 12 := by
  rw [List.take_take]
  norm_num

theorem getD15_of_take16 (src : List Nat) :
    (src.take 16).getD 15 0 = src.getD 15 0 := by
  rw [List.getD_eq_getElem?_getD, List.getD_eq_getElem?_getD,
    List.getElem?_take_of_lt (by omega : (15 : Nat) < 16)]

theorem detect_of_sync (src : List Nat) (h12 : src.take 12 = SYNC_HEADER) :
    detectLayout (src.take 16) =
      (if src.getD 15 0 = 2 then Except.ok ⟨2, 24, 2352⟩
       else if src.getD 15 0 = 1 then Except.ok ⟨1, 16, 2352⟩
       else Except.error (RunError.unsupportedMode (src.getD 15 0))) := by
  unfold detectLayout MODE_OFFSET
  rw [take12_of_take16, if_neg (by simp [h12])]
  simp only []
  rw [getD15_of_take16]

theorem detect_of_mode1 (src : List Nat) (h12 : src.take 12 = SYNC_HEADER)
    (h15 : src.getD 15 0 = 1) :
    detectLayout (src.take 16) = Except.ok ⟨1, 16, 2352⟩ := by
  rw [detect_of_sync src h12, h15]
  simp

theorem detect_of_mode2 (src : List Nat) (h12 : src.take 12 = SYNC_HEADER)
    (h15 : src.getD 15 0 = 2) :
    detectLayout (src.take 16) = Except.ok ⟨2, 24, 2352⟩ := by
  rw [detect_of_sync src h12, h15]
  simp

theorem detect_of_nosync (src : List Nat) (h12 : src.take 12 ≠ SYNC_HEADER) :
    detectLayout (src.take 16) = Except.ok ⟨0, 8, 2336⟩ := by
  unfold detectLayout
  rw [take12_of_take16, if_pos h12]

theorem convert_valid (src : List Nat) (L : Layout) (N : Nat)
    (hlen16 : 16 ≤ src.length)
    (hdet : detectLayout (src.take 16) = Except.ok L)
    (hN : src.length = N * L.sector_sz) :
    ∃ st, convert src = Except.ok st ∧
      st.dst = payloadSeg src L 0 N ∧
      st.dst.length = N * 2048 ∧
      ∀ k < N * 2048, st.dst.getD k 0 =
        src.getD (L.hdr_sz + L.sector_sz * (k / 2048) + k % 2048) 0 := by
  obtain ⟨hhdr, hsz16⟩ := detectLayout_hdr_le _ _ hdet
  have hszpos : 0 < L.sector_sz := by omega
  have hnr : src.length / L.sector_sz = N := by
    rw [hN, Nat.mul_div_cancel _ hszpos]
  refine ⟨_, convert_spec src L hlen16 hdet, ?_, ?_, ?_⟩
  · simp [hnr]
  · simp only [hnr]
    exact payloadSeg_length src L hhdr N 0 (by simpa using hN.ge)
  · intro k hk
    simp only [hnr]
    exact payloadSeg_getD src L hhdr N k (by omega) hk

/-- C1: For every valid image of `N` whole sectors, conversion succeeds and
writes exactly `N * 2048` bytes, and output byte `k` equals source byte
`header_size + sector_size * (k / 2048) + k % 2048`, with
`(header_size, sector_size)` being `(16, 2352)` for Mode 1 / 2352 images,
`(24, 2352)` for Mode 2 / 2352 images, and `(8, 2336)` for Mode 2 / 2336
images (the output order being exactly ascending sector order). -/
theorem C1_conversion_bytes :
    (∀ (src : List Nat) (N : Nat),
       src.take 12 = SYNC_HEADER → src.getD 15 0 = 1 → src.length = N * 2352 →
       ∃ st, convert src = Except.ok st ∧ st.dst.length = N * 2048 ∧
         ∀ k < N * 2048,
           st.dst.getD k 0 = src.getD (16 + 2352 * (k / 2048) + k % 2048) 0) ∧
    (∀ (src : List Nat) (N : Nat),
       src.take 12 = SYNC_HEADER → src.getD 15 0 = 2 → src.length = N * 2352 →
       ∃ st, convert src = Except.ok st ∧ st.dst.length = N * 2048 ∧
         ∀ k < N * 2048,
           st.dst.getD k 0 = src.getD (24 + 2352 * (k / 2048) + k % 2048) 0) ∧
    (∀ (src : List Nat) (N : Nat),
       src.take 12 ≠ SYNC_HEADER → src.length = N * 2336 → 1 ≤ N →
       ∃ st, convert src = Except.ok st ∧ st.dst.length = N * 2048 ∧
         ∀ k < N * 2048,
           st.dst.getD k 0 = src.getD (8 + 2336 * (k / 2048) + k % 2048) 0) := by
  refine ⟨?_, ?_, ?_⟩
  · intro src N h12 h15 hN
    have h16 : 16 ≤ src.length := lt_length_of_getD_ne src 15 (by omega)
    obtain ⟨st, hconv, _, hlen, hget⟩ :=
      convert_valid src ⟨1, 16, 2352⟩ N h16 (detect_of_mode1 src h12 h15) hN
    exact ⟨st, hconv, hlen, hget⟩
  · intro src N h12 h15 hN
    have h16 : 16 ≤ src.length := lt_length_of_getD_ne src 15 (by omega)
    obtain ⟨st, hconv, _, hlen, hget⟩ :=
      convert_valid src ⟨2, 24, 2352⟩ N h16 (detect_of_mode2 src h12 h15) hN
    exact ⟨st, hconv, hlen, hget⟩
  · intro src N h12 hN hN1
    have h16 : 16 ≤ src.length := by rw [hN]; omega
    obtain ⟨st, hconv, _, hlen, hget⟩ :=
      convert_valid src ⟨0, 8, 2336⟩ N h16 (detect_of_nosync src h12) hN
    exact ⟨st, hconv, hlen, hget⟩

/-- A concrete one-sector Mode 1 / 2352 image: sync header, address bytes,
mode byte 1, then 2336 filler bytes. -/
def c1src : List Nat := SYNC_HEADER ++ [0, 0, 0, 1] ++ List.replicate 2336 7

theorem C1_conversion_bytes_witness :
    ∃ st, convert c1src = Except.ok st ∧ st.dst.length = 1 * 2048 ∧
      ∀ k < 1 * 2048,
        st.dst.getD k 0 = c1src.getD (16 + 2352 * (k / 2048) + k % 2048) 0 :=
  C1_conversion_bytes.1 c1src 1 (by rfl) (by rfl)
    (by unfold c1src SYNC_HEADER
        rw [List.length_append, List.length_append, List.length_replicate]
        norm_num)

/-- C2: Layout detection depends only on the first 16 bytes of the source.
A sync-header mismatch on the first 12 bytes yields the Mode 2 / 2336 layout
(header 8, sector 2336, no mode to validate); a match selects by the byte at
offset 15: value 1 gives Mode 1 / 2352 (header 16), value 2 gives
Mode 2 / 2352 (header 24), and any other value is the fatal UnsupportedMode
failure carrying that value. -/
theorem C2_detect_layout :
    (∀ s₁ s₂ : List Nat, s₁.take 16 = s₂.take 16 →
       detectLayout (s₁.take 16) = detectLayout (s₂.take 16)) ∧
    (∀ probe : List Nat,
      (probe.take 12 ≠ SYNC_HEADER →
         detectLayout probe = Except.ok ⟨0, 8, 2336⟩) ∧
      (probe.take 12 = SYNC_HEADER →
        (probe.getD MODE_OFFSET 0 = 1 →
           detectLayout probe = Except.ok ⟨1, 16, 2352⟩) ∧
        (probe.getD MODE_OFFSET 0 = 2 →
           detectLayout probe = Except.ok ⟨2, 24, 2352⟩) ∧
        (probe.getD MODE_OFFSET 0 ≠ 1 → probe.getD MODE_OFFSET 0 ≠ 2 →
           detectLayout probe =
             Except.error (RunError.unsupportedMode (probe.getD MODE_OFFSET 0))))) := by
  constructor
  · intro s₁ s₂ h
    rw [h]
  · intro probe
    refine ⟨fun h12 => ?_, fun h12 => ⟨fun h1 => ?_, fun h2 => ?_, fun h1 h2 => ?_⟩⟩
    · unfold detectLayout
      rw [if_pos h12]
    · unfold detectLayout
      rw [if_neg (by simp [h12])]
      simp only []
      rw [h1]
      simp
    · unfold detectLayout
      rw [if_neg (by simp [h12])]
      simp only []
      rw [h2]
      simp
    · unfold detectLayout
      rw [if_neg (by simp [h12])]
      simp only []
      rw [if_neg h2, if_neg h1]

theorem C2_detect_layout_witness :
    detectLayout (SYNC_HEADER ++ [0, 0, 0, 1]) = Except.ok ⟨1, 16, 2352⟩ ∧
    detectLayout (SYNC_HEADER ++ [0, 0, 0, 7]) =
      Except.error (RunError.unsupportedMode 7) ∧
    detectLayout [5, 5] = Except.ok ⟨0, 8, 2336⟩ :=
  ⟨((C2_detect_layout.2 (SYNC_HEADER ++ [0, 0, 0, 1])).2 (by decide)).1 (by decide),
   (((C2_detect_layout.2 (SYNC_HEADER ++ [0, 0, 0, 7])).2 (by decide)).2.2
      (by decide) (by decide)),
   (C2_detect_layout.2 [5, 5]).1 (by decide)⟩

/-- C3: When the probe's first 12 bytes match the sync header but its mode
byte (offset 15) is neither 1 nor 2, the program fails with UnsupportedMode
carrying the observed value and the destination file (truncated by opening
it for writing) is left with zero bytes written. -/
theorem C3_unsupported_mode (src dstInit : List Nat)
    (h16 : 16 ≤ src.length) (h12 : src.take 12 = SYNC_HEADER)
    (h1 : src.getD 15 0 ≠ 1) (h2 : src.getD 15 0 ≠ 2) :
    runProgram src dstInit =
      (Except.error (RunError.unsupportedMode (src.getD 15 0)), []) := by
  have hprobe : xfreadAt src 0 16 = some (src.take 16) := by
    simp [xfreadAt, h16]
  have hdet : detectLayout (src.take 16) =
      Except.error (RunError.unsupportedMode (src.getD 15 0)) := by
    rw [detect_of_sync src h12, if_neg h2, if_neg h1]
  have hconv : convert src = Except.error (RunError.unsupportedMode (src.getD 15 0)) := by
    simp only [convert, hprobe, hdet]
  unfold runProgram fopenWb
  rw [hconv]

theorem C3_unsupported_mode_witness :
    runProgram (SYNC_HEADER ++ [0, 0, 0, 7]) [1, 2, 3] =
      (Except.error (RunError.unsupportedMode 7), []) := by
  have h := C3_unsupported_mode (SYNC_HEADER ++ [0, 0, 0, 7]) [1, 2, 3]
    (by decide) (by decide) (by decide) (by decide)
  simpa using h

theorem mem_warnSeg (src : List Nat) (L : Layout) :
    ∀ (n i : Nat) (w : Warning), w ∈ warnSeg src L i n →
      ∃ j, i ≤ j ∧ j < i + n ∧
        w = Warning.modeMismatch j ((sectorBuf src L j).getD MODE_OFFSET 0) L.mode ∧
        L.mode ≠ 0 ∧ (sectorBuf src L j).getD MODE_OFFSET 0 ≠ L.mode := by
  intro n
  induction n with
  | zero => intro i w hw; simp [warnSeg] at hw
  | succ n ih =>
    intro i w hw
    have hw' : w ∈ mismatchWarnAt src L i ∨ w ∈ warnSeg src L (i + 1) n := by
      simpa [warnSeg] using hw
    rcases hw' with hw' | hw'
    · unfold mismatchWarnAt at hw'
      by_cases hc : L.mode ≠ 0 ∧ (sectorBuf src L i).getD MODE_OFFSET 0 ≠ L.mode
      · rw [if_pos hc] at hw'
        simp only [List.mem_singleton] at hw'
        exact ⟨i, le_refl i, by omega, hw', hc.1, hc.2⟩
      · rw [if_neg hc] at hw'
        simp at hw'
    · obtain ⟨j, hj1, hj2, hj3⟩ := ih (i + 1) w hw'
      exact ⟨j, by omega, by omega, hj3⟩

theorem warnSeg_mem_of (src : List Nat) (L : Layout) :
    ∀ (n i j : Nat), i ≤ j → j < i + n →
      ∀ w ∈ mismatchWarnAt src L j, w ∈ warnSeg src L i n := by
  intro n
  induction n with
  | zero => intro i j h1 h2; omega
  | succ n ih =>
    intro i j h1 h2 w hw
    by_cases hij : j = i
    · subst hij
      simp only [warnSeg, List.mem_append]
      exact Or.inl hw
    · simp only [warnSeg, List.mem_append]
      exact Or.inr (ih (i + 1) j (by omega) (by omega) w hw)

/-- C4: Geometry is the pure integer arithmetic `sector_count =
total_len / sector_size`, `tail_bytes = total_len % sector_size`; when the
length is not a multiple of the sector size, conversion still succeeds, the
warning list starts with the single size-misalignment warning naming the
sector size and the dropped byte count (and contains no other such
warning), and the output covers exactly the `total_len / sector_size`
complete sectors. -/
theorem C4_geometry (src : List Nat) (L : Layout)
    (h16 : 16 ≤ src.length)
    (hdet : detectLayout (src.take 16) = Except.ok L)
    (htail : src.length % L.sector_sz ≠ 0) :
    ∃ st, convert src = Except.ok st ∧
      st.dst = payloadSeg src L 0 (src.length / L.sector_sz) ∧
      st.dst.length = src.length / L.sector_sz * 2048 ∧
      st.warnings =
        Warning.sizeMisaligned L.sector_sz (src.length % L.sector_sz) ::
          warnSeg src L 0 (src.length / L.sector_sz) ∧
      ∀ w ∈ warnSeg src L 0 (src.length / L.sector_sz),
        ∀ ssz dropped, w ≠ Warning.sizeMisaligned ssz dropped := by
  obtain ⟨hhdr, hsz16⟩ := detectLayout_hdr_le _ _ hdet
  refine ⟨_, convert_spec src L h16 hdet, rfl, ?_, ?_, ?_⟩
  · exact payloadSeg_length src L hhdr _ 0
      (by simpa using Nat.div_mul_le_self src.length L.sector_sz)
  · simp [htail]
  · intro w hw ssz dropped
    obtain ⟨j, _, _, hj, _, _⟩ := mem_warnSeg src L _ 0 w hw
    rw [hj]
    simp

theorem C4_geometry_witness :
    ∃ st, convert (List.replicate 20 5) = Except.ok st ∧
      st.dst = payloadSeg (List.replicate 20 5) ⟨0, 8, 2336⟩ 0
        ((List.replicate 20 5).length / 2336) ∧
      st.dst.length = (List.replicate 20 5).length / 2336 * 2048 ∧
      st.warnings =
        Warning.sizeMisaligned 2336 ((List.replicate 20 5).length % 2336) ::
          warnSeg (List.replicate 20 5) ⟨0, 8, 2336⟩ 0
            ((List.replicate 20 5).length / 2336) ∧
      ∀ w ∈ warnSeg (List.replicate 20 5) ⟨0, 8, 2336⟩ 0
          ((List.replicate 20 5).length / 2336),
        ∀ ssz dropped, w ≠ Warning.sizeMisaligned ssz dropped :=
  C4_geometry (List.replicate 20 5) ⟨0, 8, 2336⟩ (by decide) (by decide) (by decide)

theorem sectorBuf_getD15 (src : List Nat) (L : Layout) (i : Nat)
    (h15 : 15 < L.sector_sz) :
    (sectorBuf src L i).getD MODE_OFFSET 0 = src.getD (i * L.sector_sz + 15) 0 := by
  unfold sectorBuf MODE_OFFSET
  rw [List.getD_eq_getElem?_getD, List.getD_eq_getElem?_getD,
    List.getElem?_take_of_lt h15, List.getElem?_drop]

theorem detect_mode_eq (src : List Nat) (L : Layout)
    (hdet : detectLayout (src.take 16) = Except.ok L) (hm : L.mode ≠ 0) :
    L.mode = src.getD 15 0 ∧ L.sector_sz = 2352 := by
  unfold detectLayout at hdet
  split at hdet
  · cases Except.ok.inj hdet
    simp at hm
  · simp only [] at hdet
    rw [show MODE_OFFSET = 15 from rfl, getD15_of_take16] at hdet
    split at hdet
    · cases Except.ok.inj hdet
      rename_i hbyte
      exact ⟨hbyte.symm, rfl⟩
    · split at hdet
      · cases Except.ok.inj hdet
        rename_i hbyte
        exact ⟨hbyte.symm, rfl⟩
      · exact absurd hdet (by simp)

/-- C5: For a 2352-byte layout, a sector whose mode byte differs from the
detected mode gets a non-fatal warning carrying the sector index, the
observed byte and the expected mode, while a matching sector gets no
warning; in either case the sector's 2048 output bytes are exactly the
payload cut out with the header size of the layout chosen at detection
time, and the conversion never aborts. -/
theorem C5_mode_mismatch_nonfatal (src : List Nat) (L : Layout)
    (h16 : 16 ≤ src.length)
    (hdet : detectLayout (src.take 16) = Except.ok L)
    (hmode : L.mode ≠ 0) :
    ∃ st, convert src = Except.ok st ∧
      ∀ i < src.length / L.sector_sz,
        (∀ r < 2048,
           st.dst.getD (i * 2048 + r) 0 = (payloadAt src L i).getD r 0) ∧
        ((sectorBuf src L i).getD MODE_OFFSET 0 ≠ L.mode →
           Warning.modeMismatch i ((sectorBuf src L i).getD MODE_OFFSET 0) L.mode
             ∈ st.warnings) ∧
        ((sectorBuf src L i).getD MODE_OFFSET 0 = L.mode →
           ∀ obs, Warning.modeMismatch i obs L.mode ∉ st.warnings) := by
  obtain ⟨hhdr, hsz16⟩ := detectLayout_hdr_le _ _ hdet
  have hfit : src.length / L.sector_sz * L.sector_sz ≤ src.length :=
    Nat.div_mul_le_self _ _
  refine ⟨_, convert_spec src L h16 hdet, ?_⟩
  intro i hi
  refine ⟨?_, ?_, ?_⟩
  · intro r hr
    have hk : i * 2048 + r < src.length / L.sector_sz * 2048 := by omega
    simp only []
    rw [payloadSeg_getD src L hhdr _ _ hfit hk,
      payloadAt_getD src L i r hhdr hr]
    congr 1
    have hdiv : (i * 2048 + r) / 2048 = i := by omega
    have hmod : (i * 2048 + r) % 2048 = r := by omega
    have hcomm : L.sector_sz * i = i * L.sector_sz := Nat.mul_comm _ _
    rw [hdiv, hmod]
    omega
  · intro hne
    have hmem : Warning.modeMismatch i ((sectorBuf src L i).getD MODE_OFFSET 0) L.mode
        ∈ warnSeg src L 0 (src.length / L.sector_sz) := by
      apply warnSeg_mem_of src L _ 0 i (by omega) (by omega)
      unfold mismatchWarnAt
      rw [if_pos ⟨hmode, hne⟩]
      simp
    simp only [List.mem_append]
    exact Or.inr hmem
  · intro heq obs hmem
    simp only [List.mem_append] at hmem
    rcases hmem with hmem | hmem
    · by_cases ht : src.length % L.sector_sz ≠ 0
      · rw [if_pos ht] at hmem
        simp at hmem
      · rw [if_neg ht] at hmem
        simp at hmem
    · obtain ⟨j, _, _, hj, _, hjne⟩ := mem_warnSeg src L _ 0 _ hmem
      have : i = j ∧ obs = (sectorBuf src L j).getD MODE_OFFSET 0 := by
        have := Warning.modeMismatch.inj hj
        exact ⟨this.1, this.2.1⟩
      obtain ⟨rfl, _⟩ := this
      exact hjne heq

/-- A two-sector Mode 1 / 2352 image whose second sector's mode byte has
been corrupted to 2. -/
def c5src : List Nat :=
  (SYNC_HEADER ++ [0, 0, 0, 1] ++ List.replicate 2336 7) ++
  (SYNC_HEADER ++ [0, 0, 0, 2] ++ List.replicate 2336 9)

/-- The Mode 1 / 2352 layout, for the C5 witness. -/
def c5L : Layout := ⟨1, 16, 2352⟩

theorem C5_mode_mismatch_nonfatal_witness :
    ∃ st, convert c5src = Except.ok st ∧
      ∀ i < c5src.length / c5L.sector_sz,
        (∀ r < 2048,
           st.dst.getD (i * 2048 + r) 0 =
             (payloadAt c5src c5L i).getD r 0) ∧
        ((sectorBuf c5src c5L i).getD MODE_OFFSET 0 ≠ c5L.mode →
           Warning.modeMismatch i
             ((sectorBuf c5src c5L i).getD MODE_OFFSET 0) c5L.mode
             ∈ st.warnings) ∧
        ((sectorBuf c5src c5L i).getD MODE_OFFSET 0 = c5L.mode →
           ∀ obs, Warning.modeMismatch i obs c5L.mode ∉ st.warnings) :=
  C5_mode_mismatch_nonfatal c5src c5L
    (by unfold c5src SYNC_HEADER
        rw [List.length_append, List.length_append, List.length_append,
          List.length_append, List.length_replicate, List.length_replicate]
        norm_num)
    (by rfl) (by decide)

/-- C6: For every detected layout and every processed sector, exactly 2048
payload bytes are extracted, and the whole output is `sector_count * 2048`
bytes — the payload size is the invariant shared by all three layouts. -/
theorem C6_payload_size (src : List Nat) (L : Layout)
    (hdet : detectLayout (src.take 16) = Except.ok L) :
    (∀ i < src.length / L.sector_sz, (payloadAt src L i).length = 2048) ∧
    (16 ≤ src.length → ∃ st, convert src = Except.ok st ∧
       st.dst.length = src.length / L.sector_sz * 2048) := by
  obtain ⟨hhdr, _⟩ := detectLayout_hdr_le _ _ hdet
  constructor
  · intro i hi
    apply payloadAt_length src L i ?_ hhdr
    calc (i + 1) * L.sector_sz
        ≤ src.length / L.sector_sz * L.sector_sz := Nat.mul_le_mul_right _ hi
      _ ≤ src.length := Nat.div_mul_le_self _ _
  · intro h16
    refine ⟨_, convert_spec src L h16 hdet, ?_⟩
    exact payloadSeg_length src L hhdr _ 0
      (by simpa using Nat.div_mul_le_self src.length L.sector_sz)

/-- The Mode 2 / 2336 layout, for concrete witnesses. -/
def m2336L : Layout := ⟨0, 8, 2336⟩

/-- A one-sector Mode 2 / 2336 image (no sync header). -/
def c6src : List Nat := List.replicate 2336 3

theorem C6_payload_size_witness :
    (payloadAt c6src m2336L 0).length = 2048 ∧
    ∃ st, convert c6src = Except.ok st ∧
      st.dst.length = c6src.length / m2336L.sector_sz * 2048 :=
  have hlen : c6src.length = 2336 := by
    unfold c6src
    exact List.length_replicate 2336 3
  have hsz : m2336L.sector_sz = 2336 := rfl
  ⟨(C6_payload_size c6src m2336L (by rfl)).1 0
     (by rw [hlen, hsz]; norm_num),
   (C6_payload_size c6src m2336L (by rfl)).2 (by rw [hlen]; norm_num)⟩

/-- C7: Conversion is deterministic in the source bytes alone: the final
destination contents do not depend on the destination's prior state, and a
second run over the same source (starting from the first run's destination
contents) yields byte-identical destination contents. -/
theorem C7_deterministic (src d1 d2 : List Nat) :
    runProgram src d1 = runProgram src d2 ∧
    (runProgram src ((runProgram src d1).2)).2 = (runProgram src d1).2 := by
  have h1 : ∀ d, runProgram src d = runProgram src [] := fun d => rfl
  exact ⟨(h1 d1).trans (h1 d2).symm, by rw [h1, h1 d1]⟩

/-- C8: After a successful run, no payload is written for the `tail_bytes`
remainder: the source stream ends exactly after the last fully-processed
sector (`sector_count * sector_size`, i.e. `tail_bytes` short of the end),
and the destination stream ends exactly after the last written 2048-byte
payload, its position equalling the number of bytes written. -/
theorem C8_stream_positions (src : List Nat) (L : Layout)
    (h16 : 16 ≤ src.length)
    (hdet : detectLayout (src.take 16) = Except.ok L) :
    ∃ st, convert src = Except.ok st ∧
      st.srcPos = src.length / L.sector_sz * L.sector_sz ∧
      st.srcPos + src.length % L.sector_sz = src.length ∧
      st.dstPos = src.length / L.sector_sz * 2048 ∧
      st.dst.length = st.dstPos := by
  obtain ⟨hhdr, _⟩ := detectLayout_hdr_le _ _ hdet
  refine ⟨_, convert_spec src L h16 hdet, rfl, ?_, rfl, ?_⟩
  · dsimp only
    have hdm := Nat.div_add_mod src.length L.sector_sz
    have hc : src.length / L.sector_sz * L.sector_sz =
        L.sector_sz * (src.length / L.sector_sz) := Nat.mul_comm _ _
    omega
  · exact payloadSeg_length src L hhdr _ 0
      (by simpa using Nat.div_mul_le_self src.length L.sector_sz)

/-- A misaligned Mode 2 / 2336 image: one whole sector plus 4 tail bytes. -/
def c8src : List Nat := List.replicate 2340 4

theorem C8_stream_positions_witness :
    ∃ st, convert c8src = Except.ok st ∧
      st.srcPos = c8src.length / m2336L.sector_sz * m2336L.sector_sz ∧
      st.srcPos + c8src.length % m2336L.sector_sz = c8src.length ∧
      st.dstPos = c8src.length / m2336L.sector_sz * 2048 ∧
      st.dst.length = st.dstPos :=
  C8_stream_positions c8src m2336L
    (by unfold c8src
        rw [List.length_replicate]
        norm_num)
    (by rfl)

/-- C9: A source of at least 16 bytes but shorter than the detected sector
size converts successfully to an empty destination, leaving exactly the
size-misalignment warning that reports the whole length as dropped. -/
theorem C9_short_image (src : List Nat) (L : Layout)
    (h16 : 16 ≤ src.length)
    (hdet : detectLayout (src.take 16) = Except.ok L)
    (hsmall : src.length < L.sector_sz) :
    convert src = Except.ok
      { srcPos := 0, dstPos := 0, dst := [],
        warnings := [Warning.sizeMisaligned L.sector_sz src.length] } := by
  have h0 : src.length / L.sector_sz = 0 := Nat.div_eq_of_lt hsmall
  have hm : src.length % L.sector_sz = src.length := Nat.mod_eq_of_lt hsmall
  have hne : src.length ≠ 0 := by omega
  rw [convert_spec src L h16 hdet, h0, hm]
  simp [payloadSeg, warnSeg, hne]

theorem C9_short_image_witness :
    convert (List.replicate 30 6) = Except.ok
      { srcPos := 0, dstPos := 0, dst := [],
        warnings := [Warning.sizeMisaligned 2336 30] } := by
  have h := C9_short_image (List.replicate 30 6) ⟨0, 8, 2336⟩
    (by decide) (by decide) (by decide)
  simpa using h

theorem convert_ok_inv (src : List Nat) (st : St)
    (h : convert src = Except.ok st) :
    16 ≤ src.length ∧ ∃ L, detectLayout (src.take 16) = Except.ok L := by
  unfold convert at h
  split at h
  · cases h
  · rename_i probe heq
    unfold xfreadAt at heq
    split at heq
    · rename_i h16
      have hprobe : probe = src.take 16 := by
        cases heq
        rw [List.drop_zero]
      subst hprobe
      refine ⟨by omega, ?_⟩
      split at h
      · cases h
      · rename_i L hdet
        exact ⟨L, hdet⟩
    · cases heq

/-- C10: A mode-mismatch warning is never emitted for sector 0 (the
expected mode is the mode byte of sector 0 itself), and never emitted at
all when the detected layout is Mode 2 / 2336 (no mode check is performed
for that layout). -/
theorem C10_warning_exclusions (src : List Nat) (st : St)
    (hconv : convert src = Except.ok st) :
    (∀ obs exp, Warning.modeMismatch 0 obs exp ∉ st.warnings) ∧
    (detectLayout (src.take 16) = Except.ok ⟨0, 8, 2336⟩ →
       ∀ i obs exp, Warning.modeMismatch i obs exp ∉ st.warnings) := by
  obtain ⟨h16, L, hdet⟩ := convert_ok_inv src st hconv
  rw [convert_spec src L h16 hdet] at hconv
  have hst := (Except.ok.inj hconv).symm
  subst hst
  have hsize : ∀ w ∈ (if src.length % L.sector_sz ≠ 0 then
      [Warning.sizeMisaligned L.sector_sz (src.length % L.sector_sz)]
    else ([] : List Warning)), ∀ i obs exp, w ≠ Warning.modeMismatch i obs exp := by
    intro w hw i obs exp
    by_cases ht : src.length % L.sector_sz ≠ 0
    · rw [if_pos ht] at hw
      simp only [List.mem_singleton] at hw
      subst hw
      simp
    · rw [if_neg ht] at hw
      simp at hw
  constructor
  · intro obs exp hmem
    simp only [List.mem_append] at hmem
    rcases hmem with hmem | hmem
    · exact hsize _ hmem 0 obs exp rfl
    · obtain ⟨j, _, _, hj, hm0, hjne⟩ := mem_warnSeg src L _ 0 _ hmem
      obtain ⟨hj0, hobs, hexp⟩ := Warning.modeMismatch.inj hj
      obtain ⟨hmode15, hsz⟩ := detect_mode_eq src L hdet hm0
      apply hjne
      rw [← hj0, sectorBuf_getD15 src L 0 (by omega), Nat.zero_mul, Nat.zero_add,
        ← hmode15]
  · intro hdet2336 i obs exp hmem
    have hL : L = ⟨0, 8, 2336⟩ := by
      rw [hdet] at hdet2336
      exact Except.ok.inj hdet2336
    simp only [List.mem_append] at hmem
    rcases hmem with hmem | hmem
    · exact hsize _ hmem i obs exp rfl
    · obtain ⟨j, _, _, _, hm0, _⟩ := mem_warnSeg src L _ 0 _ hmem
      rw [hL] at hm0
      exact hm0 rfl

theorem C10_warning_exclusions_witness :
    (∀ obs exp, Warning.modeMismatch 0 obs exp ∉
       [Warning.sizeMisaligned 2336 40]) ∧
    (detectLayout ((List.replicate 40 7).take 16) = Except.ok ⟨0, 8, 2336⟩ →
       ∀ i obs exp, Warning.modeMismatch i obs exp ∉
         [Warning.sizeMisaligned 2336 40]) := by
  have h := C10_warning_exclusions (List.replicate 40 7)
    ⟨0, 0, [], [Warning.sizeMisaligned 2336 40]⟩ (by decide)
  exact h

end Bin2Iso
